import Mathlib

/-!
Shallow embedding of `src/bolt/cogs/mod/cog.py` (the `Mod` cog of the bolt
moderation bot): the infraction ledger, the kick/ban action dispatcher, the
purge filter engine and the ledger query/presentation commands, together with
theorems settling the specification claims about them.

Conventions of the embedding:
* Discord snowflake ids, role positions and timestamps are `Nat`.
* An embed sent back to the invoking channel is the `Embed` structure below;
  the `value` of an embed field is kept as the list of its lines (the Python
  code joins them with a newline before sending).
* Calls into the chat platform (`guild.kick`, `guild.ban`, `channel.purge`)
  are recorded in an explicit trace, so that "no platform call happened" is
  a statable property.  A platform action that can fail is given its outcome
  as an explicit `Bool` argument; a Python exception that propagates out of
  the command body is the `raised` flag of the result.
* The database collaborator (`self.bot.db`) is the `DB` structure: the list
  of `InfractionRecord` rows plus the next primary key.
-/

namespace Bolt

/-- `InfractionType` from `src/bolt/cogs/mod/types.py` (referenced by the cog):
the closed set of infraction kinds. -/
inductive InfractionType
  | note
  | warning
  | mute
  | kick
  | ban
deriving Repr, DecidableEq

/-- `INFRACTION_TYPE_EMOJI` (cog.py lines 12-18). -/
def typeEmoji : InfractionType → String
  | .note => "📔"
  | .warning => "⚠"
  | .mute => "🔇"
  | .kick => "👢"
  | .ban => "🔨"

/-- The `.value` attribute of each enum member (its string value). -/
def typeValue : InfractionType → String
  | .note => "note"
  | .warning => "warning"
  | .mute => "mute"
  | .kick => "kick"
  | .ban => "ban"

/-- Numeric key used to model the SQL `ORDER BY type` collation; any fixed
total order on the enum works for the grouping behaviour of the cog. -/
def typeKey : InfractionType → Nat
  | .note => 0
  | .warning => 1
  | .mute => 2
  | .kick => 3
  | .ban => 4

/-- One row of the `infraction` table (the sole persistent entity). -/
structure InfractionRecord where
  id : Nat
  type : InfractionType
  guildId : Nat
  userId : Nat
  moderatorId : Nat
  reason : String
  createdOn : Nat
  editedOn : Option Nat
deriving Repr, DecidableEq

/-- The infraction table: its rows plus the next auto-increment primary key. -/
structure DB where
  rows : List InfractionRecord
  nextId : Nat
deriving Repr, DecidableEq

/-- `infraction_db.insert().values(...)` followed by
`result.inserted_primary_key[0]`.  Modelled from the spec: the column
defaults live in `src/bolt/cogs/mod/models.py`, which is not part of the
sources; per the spec `id` is a monotonic unique identifier assigned by the
store, `createdOn` is set once at insert, and `editedOn` is null until the
first edit.  Returns the new store and the inserted primary key. -/
def dbInsert (db : DB) (t : InfractionType) (guildId userId moderatorId : Nat)
    (reason : String) (now : Nat) : DB × Nat :=
  ({ rows := db.rows ++
      [{ id := db.nextId, type := t, guildId := guildId, userId := userId,
         moderatorId := moderatorId, reason := reason, createdOn := now,
         editedOn := none }],
     nextId := db.nextId + 1 },
   db.nextId)

/-- The `WHERE id == id_ AND guild_id == guildId` predicate used by the
edit/delete/detail statements of the cog. -/
def recMatches (id_ guildId : Nat) (r : InfractionRecord) : Bool :=
  r.id == id_ && r.guildId == guildId

/-- `infraction_db.update().where(id, guild_id).values(reason=new_reason)`
(cog.py lines 361-365) and the resulting `rowcount`.  Modelled from the spec
for the part carried by the absent `models.py`: the store sets `editedOn` to
the current time whenever a row is updated by the edit command ("update
`reason` and set `editedOn` to now").  Returns the new store and the number
of affected rows. -/
def dbUpdateReason (db : DB) (id_ guildId : Nat) (newReason : String)
    (now : Nat) : DB × Nat :=
  ({ db with
     rows := db.rows.map (fun r =>
       if recMatches id_ guildId r then
         { r with reason := newReason, editedOn := some now }
       else r) },
   (db.rows.filter (recMatches id_ guildId)).length)

/-- `infraction_db.delete().where(id, guild_id)` (cog.py lines 385-389) and
the resulting `rowcount`. -/
def dbDeleteById (db : DB) (id_ guildId : Nat) : DB × Nat :=
  ({ db with rows := db.rows.filter (fun r => !recMatches id_ guildId r) },
   (db.rows.filter (recMatches id_ guildId)).length)

/-- A resolved Discord user (`bot.get_user` result / a `discord.User`
command argument). -/
structure User where
  id : Nat
  name : String
deriving Repr, DecidableEq

/-- A `discord.Member` command argument: the target of kick/ban and the
author objects of purge-by-user.  `topRolePosition` is
`member.top_role.position`. -/
structure Member where
  id : Nat
  name : String
  topRolePosition : Nat
deriving Repr, DecidableEq

/-- The slice of the invocation context `ctx` the cog reads: the guild, the
invoking author (with the author's own top role position, which the code
never consults for the hierarchy check) and `ctx.message.guild.me.top_role
.position`, the bot account's own top role position in the guild. -/
structure Ctx where
  guildId : Nat
  guildName : String
  authorId : Nat
  authorName : String
  authorTopRolePosition : Nat
  meTopRolePosition : Nat
deriving Repr, DecidableEq

/-- A `discord.Embed` as far as the cog populates one.  A field value is the
list of its lines (the code joins lines with a newline). -/
structure Embed where
  title : String
  description : Option String := none
  colour : String := "default"
  fields : List (String × List String) := []
  footerText : Option String := none
deriving Repr, DecidableEq

/-- A call into the chat platform made by the kick/ban command bodies. -/
inductive PlatformCall
  | kickMember (memberId : Nat) (auditReason : String)
  | banMember (memberId : Nat) (auditReason : String) (deleteMessageDays : Nat)
deriving Repr, DecidableEq

/-- Result of running a kick/ban command body: final store, embeds sent,
platform calls attempted, and whether an exception propagated out of the
body (aborting it). -/
structure CommandResult where
  db : DB
  sent : List Embed
  calls : List PlatformCall
  raised : Bool
deriving Repr, DecidableEq

/-- The denial embed of `kick` (cog.py lines 45-50). -/
def kickDeniedEmbed : Embed :=
  { title := "Cannot kick:",
    description := some ("I cannot kick any Members that are in the same or " ++
      "higher position in the role hierarchy as I am."),
    colour := "red" }

/-- The audit-log reason string passed to `ctx.guild.kick` (lines 54-55). -/
def kickAuditReason (ctx : Ctx) (reason : String) : String :=
  "Command invoked by " ++ ctx.authorName ++ ", reason: " ++
    (if reason = "" then "No reason specified" else reason) ++ "."

/-- The `kick` command body (cog.py lines 36-84).  `platformOk` is the
outcome of the `ctx.guild.kick` call: when it raises, the command body
aborts with the exception and nothing after it runs. -/
def kick (ctx : Ctx) (member : Member) (reason : String) (platformOk : Bool)
    (now : Nat) (db : DB) : CommandResult :=
  if ctx.meTopRolePosition ≤ member.topRolePosition then
    { db := db, sent := [kickDeniedEmbed], calls := [], raised := false }
  else if platformOk then
    let ins := dbInsert db InfractionType.kick ctx.guildId member.id
      ctx.authorId reason now
    { db := ins.fst,
      sent := [{ title := "Kicked `" ++ member.name ++ "` (`" ++
                   toString member.id ++ "`)",
                 colour := "green",
                 footerText := some ("Kicked by " ++ ctx.authorName ++ " (" ++
                   toString ctx.authorId ++ ")"),
                 fields := [("Reason",
                             [if reason = "" then "no reason specified"
                              else reason]),
                            ("Infraction",
                             ["created with ID `" ++ toString ins.snd ++ "`"])] }],
      calls := [PlatformCall.kickMember member.id (kickAuditReason ctx reason)],
      raised := false }
  else
    { db := db, sent := [],
      calls := [PlatformCall.kickMember member.id (kickAuditReason ctx reason)],
      raised := true }

/-- The denial embed of `ban` (cog.py lines 99-104). -/
def banDeniedEmbed : Embed :=
  { title := "Cannot ban:",
    description := some ("I cannot ban any Members that are in the same " ++
      "or higher position in the role hierarchy as I am."),
    colour := "red" }

/-- The audit-log reason string passed to `ctx.guild.ban` (lines 108-109). -/
def banAuditReason (ctx : Ctx) (reason : String) : String :=
  "banned by command invocation from " ++ ctx.authorName ++ ", reason: " ++
    (if reason = "" then "No reason specified" else reason) ++ "."

/-- The `ban` command body (cog.py lines 90-142).  `platformOk` is the
outcome of the `ctx.guild.ban` call. -/
def ban (ctx : Ctx) (member : Member) (reason : String) (platformOk : Bool)
    (now : Nat) (db : DB) : CommandResult :=
  if ctx.meTopRolePosition ≤ member.topRolePosition then
    { db := db, sent := [banDeniedEmbed], calls := [], raised := false }
  else if platformOk then
    let ins := dbInsert db InfractionType.ban ctx.guildId member.id
      ctx.authorId reason now
    { db := ins.fst,
      sent := [{ title := "Banned `" ++ member.name ++ "` (`" ++
                   toString member.id ++ "`)",
                 description := if reason = "" then none
                   else some ("**Reason**: " ++ reason),
                 colour := "green",
                 footerText := some ("Banned by " ++ ctx.authorName ++ " (" ++
                   toString ctx.authorId ++ ")"),
                 fields := [("Reason",
                             [if reason = "" then "no reason specified"
                              else reason]),
                            ("Infraction",
                             ["created with ID `" ++ toString ins.snd ++ "`"])] }],
      calls := [PlatformCall.banMember member.id (banAuditReason ctx reason) 7],
      raised := false }
  else
    { db := db, sent := [],
      calls := [PlatformCall.banMember member.id (banAuditReason ctx reason) 7],
      raised := true }

/-- A message of a channel history; `authorId` is `m.author.id` (Member
equality on the platform compares ids) and `content` is `m.content`. -/
structure Message where
  id : Nat
  authorId : Nat
  content : String
deriving Repr, DecidableEq

/-- A text channel: its message history, newest first. -/
structure Channel where
  messages : List Message
deriving Repr, DecidableEq

/-- `ctx.message.channel.purge(check=check, limit=limit)`: scan the newest
`limit` messages of the history, delete those passing `check`, and return
(deleted messages, new history). -/
def purgeRun (history : List Message) (check : Message → Bool) (limit : Nat) :
    List Message × List Message :=
  ((history.take limit).filter check,
   (history.take limit).filter (fun m => !check m) ++ history.drop limit)

/-- Result of a purge command body: the channel afterwards, the messages
deleted, the `limit` argument of each platform purge call made, and the
embeds sent. -/
structure PurgeOutcome where
  channel : Channel
  deleted : List Message
  purgeLimitsUsed : List Nat
  sent : List Embed
deriving Repr, DecidableEq

/-- Footer text shared by all purge response embeds. -/
def purgedFooter (ctx : Ctx) : String :=
  "Purged by " ++ ctx.authorName ++ " (" ++ toString ctx.authorId ++ ")"

/-- Title of all purge response embeds: the literal count of messages the
platform reported as removed. -/
def purgedTitle (total : Nat) : String :=
  "Purged a total of `" ++ toString total ++ "` messages."

/-- The `purge` command body at an explicit `limit` argument
(cog.py lines 148-174): an unconditional purge of the first `limit`
messages. -/
def purgeCmdWith (ctx : Ctx) (ch : Channel) (limit : Nat) : PurgeOutcome :=
  let pr := purgeRun ch.messages (fun _ => true) limit
  { channel := { messages := pr.snd },
    deleted := pr.fst,
    purgeLimitsUsed := [limit],
    sent := [{ title := purgedTitle pr.fst.length,
               colour := "green",
               footerText := some (purgedFooter ctx) }] }

/-- The `purge` command invoked with no argument: `limit: int=100`. -/
def purgeCmd (ctx : Ctx) (ch : Channel) : PurgeOutcome :=
  purgeCmdWith ctx ch 100

/-- The `purge id` command body (cog.py lines 180-215): reject an empty id
list, otherwise purge messages whose author id is among `idsToPurge`,
scanning up to the fixed ceiling of 1000 messages. -/
def purgeIdCmd (ctx : Ctx) (idsToPurge : List Nat) (ch : Channel) :
    PurgeOutcome :=
  if idsToPurge.isEmpty then
    { channel := ch, deleted := [], purgeLimitsUsed := [],
      sent := [{ title := "Failed to purge by ID:",
                 description :=
                   some "You need to specify at least one ID to purge.",
                 colour := "red" }] }
  else
    let pr := purgeRun ch.messages (fun m => idsToPurge.contains m.authorId) 1000
    { channel := { messages := pr.snd },
      deleted := pr.fst,
      purgeLimitsUsed := [1000],
      sent := [{ title := purgedTitle pr.fst.length,
                 description := some ("Affected IDs: `" ++
                   String.intercalate "`, `" (idsToPurge.map toString) ++ "`"),
                 colour := "green",
                 footerText := some (purgedFooter ctx) }] }

/-- `needle` is a starting segment of `hay` (character-exact comparison). -/
def matchesAt : List Char → List Char → Bool
  | [], _ => true
  | _ :: _, [] => false
  | a :: as, b :: bs => a == b && matchesAt as bs

/-- `needle` occurs contiguously somewhere in `hay`. -/
def hasSegment (needle : List Char) : List Char → Bool
  | [] => matchesAt needle []
  | b :: bs => matchesAt needle (b :: bs) || hasSegment needle bs

/-- Python string containment `needle in hay`: literal, case-sensitive
contiguous substring. -/
def strContainsSub (needle hay : String) : Bool :=
  hasSegment needle.data hay.data

/-- The `purge containing` command body (cog.py lines 221-246): purge
messages whose content contains `messageContents`, scanning up to `amount`
messages. -/
def purgeContaining (ctx : Ctx) (amount : Nat) (messageContents : String)
    (ch : Channel) : PurgeOutcome :=
  let pr := purgeRun ch.messages
    (fun m => strContainsSub messageContents m.content) amount
  { channel := { messages := pr.snd },
    deleted := pr.fst,
    purgeLimitsUsed := [amount],
    sent := [{ title := purgedTitle pr.fst.length,
               description := some ("Specified message content: `" ++
                 messageContents ++ "`."),
               colour := "green",
               footerText := some (purgedFooter ctx) }] }

/-- The `purge user` command body (cog.py lines 252-285): reject an empty
member list, otherwise purge messages authored by any mentioned member
(`m.author in to_purge`, which compares member ids), scanning up to
`amount` messages. -/
def purgeUserCmd (ctx : Ctx) (amount : Nat) (toPurge : List Member)
    (ch : Channel) : PurgeOutcome :=
  if toPurge.isEmpty then
    { channel := ch, deleted := [], purgeLimitsUsed := [],
      sent := [{ title := "Failed to purge User(s)",
                 description :=
                   some "You need to mention at least one User to purge.",
                 colour := "red" }] }
  else
    let pr := purgeRun ch.messages
      (fun m => toPurge.any (fun u => u.id == m.authorId)) amount
    { channel := { messages := pr.snd },
      deleted := pr.fst,
      purgeLimitsUsed := [amount],
      sent := [{ title := purgedTitle pr.fst.length,
                 description := some ("Affected users: " ++
                   String.intercalate ", " (toPurge.map (fun u =>
                     "`" ++ u.name ++ "` (`" ++ toString u.id ++ "`)"))),
                 colour := "green",
                 footerText := some (purgedFooter ctx) }] }

/-- The `infraction edit` command body (cog.py lines 358-377): run the
scoped update, then report not-found on zero affected rows and success
(showing the new reason) otherwise.  Returns the new store, the affected
row count and the embed sent. -/
def infractionEdit (ctx : Ctx) (id_ : Nat) (newReason : String) (now : Nat)
    (db : DB) : DB × Nat × Embed :=
  let upd := dbUpdateReason db id_ ctx.guildId newReason now
  (upd.fst, upd.snd,
   if upd.snd = 0 then
     { title := "Failed to find infraction #`" ++ toString id_ ++
         "` on this guild.",
       colour := "red" }
   else
     { title := "Successfully edited infraction #`" ++ toString id_ ++ "`.",
       description := some ("**New reason**: " ++ newReason),
       colour := "green" })

/-- The `infraction delete` command body (cog.py lines 382-400). -/
def infractionDelete (ctx : Ctx) (id_ : Nat) (db : DB) : DB × Nat × Embed :=
  let del := dbDeleteById db id_ ctx.guildId
  (del.fst, del.snd,
   if del.snd = 0 then
     { title := "Failed to find infraction #`" ++ toString id_ ++
         "` on this Guild.",
       colour := "red" }
   else
     { title := "Successfully deleted infraction #`" ++ toString id_ ++ "`.",
       colour := "green" })

/-- Ordering relation of the `ORDER BY created_on` clause. -/
def createdLe (a b : InfractionRecord) : Prop :=
  a.createdOn ≤ b.createdOn

instance : DecidableRel createdLe := fun _ _ => Nat.decLe _ _

instance : IsTotal InfractionRecord createdLe :=
  ⟨fun _ _ => Nat.le_total _ _⟩

instance : IsTrans InfractionRecord createdLe :=
  ⟨fun _ _ _ h h2 => Nat.le_trans h h2⟩

/-- Ordering relation of the `ORDER BY type` clause. -/
def typeLe (a b : InfractionRecord) : Prop :=
  typeKey a.type ≤ typeKey b.type

instance : DecidableRel typeLe := fun _ _ => Nat.decLe _ _

instance : IsTotal InfractionRecord typeLe :=
  ⟨fun _ _ => Nat.le_total _ _⟩

instance : IsTrans InfractionRecord typeLe :=
  ⟨fun _ _ _ h h2 => Nat.le_trans h h2⟩

/-- One line of the `infraction list` description (cog.py lines 483-493).
When `bot.get_user` resolves the user the line is rendered; when it returns
`None` the code takes the `else` branch of line 487 and evaluates `user.id`
with `user = None` (line 488), raising `AttributeError` — modelled as
`none` (the command body aborts with the exception). -/
def renderListLine (getUser : Nat → Option User) (r : InfractionRecord) :
    Option String :=
  match getUser r.userId with
  | some u => some ("• [`" ++ toString r.id ++ "`] " ++ typeEmoji r.type ++
      " on `" ++ u.name ++ "` (`" ++ toString u.id ++ "`) created " ++
      toString r.createdOn)
  | none => none

/-- Title of the `infraction list` embed (cog.py lines 472 and 477);
`str(type_)` on a Python enum member prints `InfractionType.<name>`. -/
def listTitle (ctx : Ctx) (types : List InfractionType) : String :=
  if types.isEmpty then
    "All infractions on " ++ ctx.guildName
  else
    "Infractions with types `" ++
      String.intercalate "`, `" (types.map (fun t =>
        "`InfractionType." ++ typeValue t ++ "`")) ++
      "` on " ++ ctx.guildName

/-- The `infraction list` command body (cog.py lines 464-500): select the
guild rows (optionally type-filtered) ordered by creation time, render one
line per record, and send one embed whose description is the joined lines
or the empty-state placeholder.  `getUser` is `self.bot.get_user`; the
result is `none` when the body raises (see `renderListLine`). -/
def infractionList (getUser : Nat → Option User) (ctx : Ctx)
    (types : List InfractionType) (db : DB) : Option Embed :=
  let selected :=
    if types.isEmpty then
      List.insertionSort createdLe
        (db.rows.filter (fun r => r.guildId == ctx.guildId))
    else
      List.insertionSort createdLe
        (db.rows.filter (fun r =>
          r.guildId == ctx.guildId && types.contains r.type))
  match selected.mapM (renderListLine getUser) with
  | none => none
  | some lines =>
    let d := String.intercalate "\n" lines
    some { title := listTitle ctx types,
           description := some (if d = "" then
             "Seems like there\x27s nothing here yet." else d),
           colour := "blue" }

/-- The `SELECT ... WHERE guild_id == g AND user_id == u ORDER BY type`
statement of `infraction user` (cog.py lines 508-511). -/
def selectUserRows (db : DB) (guildId userId : Nat) : List InfractionRecord :=
  List.insertionSort typeLe
    (db.rows.filter (fun r => r.guildId == guildId && r.userId == userId))

/-- One step of run-grouping: prepend record `r` to already-grouped runs,
merging into the first run when the type matches. -/
def groupCons (r : InfractionRecord) :
    List (InfractionType × List InfractionRecord) →
    List (InfractionType × List InfractionRecord)
  | [] => [(r.type, [r])]
  | (t, g) :: gs =>
    if r.type == t then (t, r :: g) :: gs
    else (r.type, [r]) :: (t, g) :: gs

/-- `itertools.groupby(rows, key=attrgetter("type"))`: split a list into
maximal runs of adjacent records sharing a type, keeping each run with its
key. -/
def groupRuns : List InfractionRecord →
    List (InfractionType × List InfractionRecord)
  | [] => []
  | r :: rs => groupCons r (groupRuns rs)

/-- Python `max(iterable, key=key)` unrolled over a head element and a tail:
keep the current candidate unless a later element is strictly greater, so
the first of several maxima wins. -/
def pyMax (key : InfractionRecord → Nat) :
    InfractionRecord → List InfractionRecord → InfractionRecord
  | best, [] => best
  | best, x :: xs => pyMax key (if key best < key x then x else best) xs

/-- Name of one `infraction user` section field (cog.py line 532). -/
def userSectionName (t : InfractionType) : String :=
  typeEmoji t ++ " " ++ typeValue t ++ "s"

/-- Lines of one `infraction user` section field (cog.py line 533). -/
def userSectionLines (g : List InfractionRecord) : List String :=
  g.map (fun i => "• [`" ++ toString i.id ++ "`] on " ++ toString i.createdOn)

/-- The sections of the `infraction user` grouped view: one per maximal run
of equal types of the type-ordered row list (cog.py line 530). -/
def userSections (rows : List InfractionRecord) :
    List (InfractionType × List InfractionRecord) :=
  groupRuns rows

/-- The embed sent for a user without recorded infractions
(cog.py lines 516-519). -/
def noInfractionsEmbed (user : User) : Embed :=
  { title := "No recorded infractions for `" ++ user.name ++ "` (`" ++
      toString user.id ++ "`).",
    colour := "blue" }

/-- The `infraction user` command body (cog.py lines 505-536): select the
rows for `(guild, user)` ordered by type; with no rows send the
no-recorded-infractions embed, otherwise send the grouped view with the
total count and most recent record in the footer and one field per run of
equal types. -/
def infractionUser (ctx : Ctx) (user : User) (db : DB) : Embed :=
  match selectUserRows db ctx.guildId user.id with
  | [] => noInfractionsEmbed user
  | r :: rs =>
    let mostRecent := pyMax (fun i => i.createdOn) r rs
    { title := "Infractions for `" ++ user.name ++ "` (`" ++
        toString user.id ++ "`)",
      colour := "blue",
      footerText := some ("total infractions: " ++ toString (r :: rs).length ++
        ", most recent: #" ++ toString mostRecent.id ++ " at " ++
        toString mostRecent.createdOn),
      fields := (userSections (r :: rs)).map (fun tg =>
        (userSectionName tg.fst, userSectionLines tg.snd)) }

/-! ## Concrete inputs used by the witnesses -/

/-- A concrete invocation context: bot top role position 5, invoking
moderator top role position 3. -/
def wCtx : Ctx :=
  { guildId := 1, guildName := "g", authorId := 9, authorName := "Mod",
    authorTopRolePosition := 3, meTopRolePosition := 5 }

/-- A target whose top role position 7 is above the bot position 5. -/
def wMemberHigh : Member :=
  { id := 42, name := "Target", topRolePosition := 7 }

/-- A target whose top role position 2 is below the bot position 5. -/
def wMemberLow : Member :=
  { id := 43, name := "Low", topRolePosition := 2 }

/-- An empty infraction store. -/
def wDb : DB := { rows := [], nextId := 1 }

/-! ## Claim theorems -/

/-- C1: for every kick or ban request whose target top role position is
greater than or equal to the enforcing bot account top role position, the
command sends exactly the user-visible denial embed, performs no platform
removal or ban call, and leaves the infraction table untouched, so the row
count before the request equals the row count after. -/
theorem kick_ban_hierarchy_denies (ctx : Ctx) (member : Member)
    (reason : String) (platformOk : Bool) (now : Nat) (db : DB)
    (h : ctx.meTopRolePosition ≤ member.topRolePosition) :
    kick ctx member reason platformOk now db =
      { db := db, sent := [kickDeniedEmbed], calls := [], raised := false } ∧
    ban ctx member reason platformOk now db =
      { db := db, sent := [banDeniedEmbed], calls := [], raised := false } ∧
    (kick ctx member reason platformOk now db).db.rows.length =
      db.rows.length ∧
    (ban ctx member reason platformOk now db).db.rows.length =
      db.rows.length := by
  simp [kick, ban, h]

theorem kick_ban_hierarchy_denies_witness :
    kick wCtx wMemberHigh "spam" true 0 wDb =
      { db := wDb, sent := [kickDeniedEmbed], calls := [], raised := false } ∧
    ban wCtx wMemberHigh "spam" true 0 wDb =
      { db := wDb, sent := [banDeniedEmbed], calls := [], raised := false } ∧
    (kick wCtx wMemberHigh "spam" true 0 wDb).db.rows.length =
      wDb.rows.length ∧
    (ban wCtx wMemberHigh "spam" true 0 wDb).db.rows.length =
      wDb.rows.length :=
  kick_ban_hierarchy_denies wCtx wMemberHigh "spam" true 0 wDb (by decide)

/-- C2: for every kick or ban invocation that passes the hierarchy check,
the ledger insert happens only after the platform action succeeds: when the
platform call raises (`platformOk = false`) the exception propagates, the
store is unchanged and no `InfractionRecord` is inserted; when it succeeds
exactly the one corresponding record is appended. -/
theorem kick_ban_insert_only_after_platform (ctx : Ctx) (member : Member)
    (reason : String) (now : Nat) (db : DB)
    (hpass : member.topRolePosition < ctx.meTopRolePosition) :
    (kick ctx member reason false now db).db = db ∧
    (kick ctx member reason false now db).raised = true ∧
    (kick ctx member reason false now db).calls =
      [PlatformCall.kickMember member.id (kickAuditReason ctx reason)] ∧
    (ban ctx member reason false now db).db = db ∧
    (ban ctx member reason false now db).raised = true ∧
    (ban ctx member reason false now db).calls =
      [PlatformCall.banMember member.id (banAuditReason ctx reason) 7] ∧
    (kick ctx member reason true now db).db.rows = db.rows ++
      [{ id := db.nextId, type := InfractionType.kick, guildId := ctx.guildId,
         userId := member.id, moderatorId := ctx.authorId, reason := reason,
         createdOn := now, editedOn := none }] ∧
    (ban ctx member reason true now db).db.rows = db.rows ++
      [{ id := db.nextId, type := InfractionType.ban, guildId := ctx.guildId,
         userId := member.id, moderatorId := ctx.authorId, reason := reason,
         createdOn := now, editedOn := none }] := by
  have hn : ¬ ctx.meTopRolePosition ≤ member.topRolePosition :=
    Nat.not_le.mpr hpass
  simp [kick, ban, dbInsert, hn]

theorem kick_ban_insert_only_after_platform_witness :
    (kick wCtx wMemberLow "spam" false 3 wDb).db = wDb ∧
    (kick wCtx wMemberLow "spam" false 3 wDb).raised = true ∧
    (kick wCtx wMemberLow "spam" false 3 wDb).calls =
      [PlatformCall.kickMember wMemberLow.id (kickAuditReason wCtx "spam")] ∧
    (ban wCtx wMemberLow "spam" false 3 wDb).db = wDb ∧
    (ban wCtx wMemberLow "spam" false 3 wDb).raised = true ∧
    (ban wCtx wMemberLow "spam" false 3 wDb).calls =
      [PlatformCall.banMember wMemberLow.id (banAuditReason wCtx "spam") 7] ∧
    (kick wCtx wMemberLow "spam" true 3 wDb).db.rows = wDb.rows ++
      [{ id := wDb.nextId, type := InfractionType.kick,
         guildId := wCtx.guildId, userId := wMemberLow.id,
         moderatorId := wCtx.authorId, reason := "spam", createdOn := 3,
         editedOn := none }] ∧
    (ban wCtx wMemberLow "spam" true 3 wDb).db.rows = wDb.rows ++
      [{ id := wDb.nextId, type := InfractionType.ban,
         guildId := wCtx.guildId, userId := wMemberLow.id,
         moderatorId := wCtx.authorId, reason := "spam", createdOn := 3,
         editedOn := none }] :=
  kick_ban_insert_only_after_platform wCtx wMemberLow "spam" 3 wDb (by decide)

/-- C10: the hierarchy denial decision of kick and ban compares the bot
account top role position against the target top role position only: two
invocations differing only in the invoking moderator role rank produce
identical results, and the platform action is skipped exactly when the bot
position is less than or equal to the target position. -/
theorem kick_ban_decision_ignores_invoker (ctx : Ctx) (member : Member)
    (reason : String) (platformOk : Bool) (now : Nat) (db : DB) (x : Nat) :
    kick { ctx with authorTopRolePosition := x } member reason platformOk
        now db =
      kick ctx member reason platformOk now db ∧
    ban { ctx with authorTopRolePosition := x } member reason platformOk
        now db =
      ban ctx member reason platformOk now db ∧
    ((kick ctx member reason platformOk now db).calls = [] ↔
      ctx.meTopRolePosition ≤ member.topRolePosition) ∧
    ((ban ctx member reason platformOk now db).calls = [] ↔
      ctx.meTopRolePosition ≤ member.topRolePosition) := by
  refine ⟨rfl, rfl, ?_, ?_⟩ <;>
    by_cases h : ctx.meTopRolePosition ≤ member.topRolePosition <;>
      cases platformOk <;> simp [kick, ban, h]

/-- C5: purge-by-id and purge-by-user invoked with an empty target set send
exactly the usage-error embed and return before any platform purge call:
the channel is unchanged, nothing is deleted and no purge limit is used. -/
theorem purge_empty_target_usage_error (ctx : Ctx) (amount : Nat)
    (ch : Channel) :
    purgeIdCmd ctx [] ch =
      { channel := ch, deleted := [], purgeLimitsUsed := [],
        sent := [{ title := "Failed to purge by ID:",
                   description :=
                     some "You need to specify at least one ID to purge.",
                   colour := "red" }] } ∧
    purgeUserCmd ctx amount [] ch =
      { channel := ch, deleted := [], purgeLimitsUsed := [],
        sent := [{ title := "Failed to purge User(s)",
                   description :=
                     some "You need to mention at least one User to purge.",
                   colour := "red" }] } := by
  constructor <;> rfl

/-- C9: every purge variant scans a bounded window and reports the literal
count of removed messages: the unconditional purge at limit `limit` deletes
exactly the newest `limit` messages (so at most `limit`), invoking it with
no argument uses the default limit 100, the reported title carries the
length of the deleted list, and purge-by-id with a non-empty id set scans
at most the fixed ceiling of 1000 messages and likewise reports the literal
deleted count. -/
theorem purge_bounded_scan_literal_count (ctx : Ctx) (ch : Channel)
    (limit : Nat) (ids : List Nat) (S : String) (members : List Member) :
    purgeCmd ctx ch = purgeCmdWith ctx ch 100 ∧
    (purgeCmdWith ctx ch limit).deleted = ch.messages.take limit ∧
    (purgeCmdWith ctx ch limit).deleted.length ≤ limit ∧
    (purgeCmdWith ctx ch limit).purgeLimitsUsed = [limit] ∧
    (purgeCmdWith ctx ch limit).sent.map Embed.title =
      [purgedTitle (purgeCmdWith ctx ch limit).deleted.length] ∧
    (ids ≠ [] →
      (purgeIdCmd ctx ids ch).deleted ⊆ ch.messages.take 1000 ∧
      (purgeIdCmd ctx ids ch).purgeLimitsUsed = [1000] ∧
      (purgeIdCmd ctx ids ch).sent.map Embed.title =
        [purgedTitle (purgeIdCmd ctx ids ch).deleted.length]) ∧
    (purgeContaining ctx limit S ch).deleted ⊆ ch.messages.take limit ∧
    (purgeContaining ctx limit S ch).sent.map Embed.title =
      [purgedTitle (purgeContaining ctx limit S ch).deleted.length] ∧
    (members ≠ [] →
      (purgeUserCmd ctx limit members ch).deleted ⊆ ch.messages.take limit ∧
      (purgeUserCmd ctx limit members ch).sent.map Embed.title =
        [purgedTitle (purgeUserCmd ctx limit members ch).deleted.length]) := by
  refine ⟨rfl, ?_, ?_, rfl, ?_, ?_, ?_, rfl, ?_⟩
  · simp [purgeCmdWith, purgeRun]
  · simp [purgeCmdWith, purgeRun]
  · rfl
  · intro hne
    have hie : ids.isEmpty = false := by
      cases ids with
      | nil => exact absurd rfl hne
      | cons a t => rfl
    refine ⟨?_, ?_, ?_⟩
    · simp only [purgeIdCmd, purgeRun, hie, Bool.false_eq_true, if_false]
      exact fun m hm => (List.filter_sublist _).subset hm
    · simp [purgeIdCmd, hie]
    · simp [purgeIdCmd, hie]
  · show ((ch.messages.take limit).filter _) ⊆ ch.messages.take limit
    exact (List.filter_sublist _).subset
  · intro hne
    have hie : members.isEmpty = false := by
      cases members with
      | nil => exact absurd rfl hne
      | cons a t => rfl
    refine ⟨?_, ?_⟩
    · simp only [purgeUserCmd, purgeRun, hie, Bool.false_eq_true, if_false]
      exact fun m hm => (List.filter_sublist _).subset hm
    · simp [purgeUserCmd, hie]

theorem purge_bounded_scan_literal_count_witness :
    purgeCmd wCtx { messages := [] } =
      purgeCmdWith wCtx { messages := [] } 100 ∧
    (purgeCmdWith wCtx { messages := [] } 5).deleted =
      ({ messages := [] } : Channel).messages.take 5 ∧
    (purgeCmdWith wCtx { messages := [] } 5).deleted.length ≤ 5 ∧
    (purgeCmdWith wCtx { messages := [] } 5).purgeLimitsUsed = [5] ∧
    (purgeCmdWith wCtx { messages := [] } 5).sent.map Embed.title =
      [purgedTitle (purgeCmdWith wCtx { messages := [] } 5).deleted.length] ∧
    ((purgeIdCmd wCtx [3] { messages := [] }).deleted ⊆
        ({ messages := [] } : Channel).messages.take 1000 ∧
      (purgeIdCmd wCtx [3] { messages := [] }).purgeLimitsUsed = [1000] ∧
      (purgeIdCmd wCtx [3] { messages := [] }).sent.map Embed.title =
        [purgedTitle
          (purgeIdCmd wCtx [3] { messages := [] }).deleted.length]) ∧
    (purgeContaining wCtx 5 "X" { messages := [] }).deleted ⊆
      ({ messages := [] } : Channel).messages.take 5 ∧
    (purgeContaining wCtx 5 "X" { messages := [] }).sent.map Embed.title =
      [purgedTitle
        (purgeContaining wCtx 5 "X" { messages := [] }).deleted.length] ∧
    ((purgeUserCmd wCtx 5 [wMemberLow] { messages := [] }).deleted ⊆
        ({ messages := [] } : Channel).messages.take 5 ∧
      (purgeUserCmd wCtx 5 [wMemberLow] { messages := [] }).sent.map
          Embed.title =
        [purgedTitle (purgeUserCmd wCtx 5 [wMemberLow]
          { messages := [] }).deleted.length]) :=
  have h := purge_bounded_scan_literal_count wCtx { messages := [] } 5 [3]
    "X" [wMemberLow]
  ⟨h.1, h.2.1, h.2.2.1, h.2.2.2.1, h.2.2.2.2.1,
   h.2.2.2.2.2.1 (by decide), h.2.2.2.2.2.2.1, h.2.2.2.2.2.2.2.1,
   h.2.2.2.2.2.2.2.2 (by decide)⟩

/-! ## Substring containment is literal contiguous containment -/

theorem matchesAt_iff (n : List Char) :
    ∀ h : List Char, matchesAt n h = true ↔ ∃ t, h = n ++ t := by
  induction n with
  | nil =>
    intro h
    simp [matchesAt]
  | cons a as ih =>
    intro h
    cases h with
    | nil => simp [matchesAt]
    | cons b bs =>
      simp only [matchesAt, Bool.and_eq_true, beq_iff_eq, ih bs,
        List.cons_append, List.cons.injEq]
      constructor
      · rintro ⟨rfl, t, rfl⟩
        exact ⟨t, rfl, rfl⟩
      · rintro ⟨t, rfl, rfl⟩
        exact ⟨rfl, t, rfl⟩

theorem hasSegment_iff (n : List Char) :
    ∀ h : List Char, hasSegment n h = true ↔ ∃ p t, h = p ++ n ++ t := by
  intro h
  induction h with
  | nil =>
    simp only [hasSegment, matchesAt_iff]
    constructor
    · rintro ⟨t, ht⟩
      exact ⟨[], t, by simpa using ht⟩
    · rintro ⟨p, t, hpt⟩
      have h3 := List.append_eq_nil.mp hpt.symm
      have h4 := List.append_eq_nil.mp h3.1
      exact ⟨[], by simp [h4.2]⟩
  | cons b bs ih =>
    simp only [hasSegment, Bool.or_eq_true, matchesAt_iff, ih]
    constructor
    · rintro (⟨t, hbt⟩ | ⟨p, t, hbt⟩)
      · exact ⟨[], t, by simpa using hbt⟩
      · exact ⟨b :: p, t, by simp [hbt]⟩
    · rintro ⟨p, t, hbt⟩
      cases p with
      | nil => exact Or.inl ⟨t, by simpa using hbt⟩
      | cons q qs =>
        rw [List.cons_append, List.cons_append, List.cons.injEq] at hbt
        exact Or.inr ⟨qs, t, by simp [hbt.2]⟩

theorem strContainsSub_iff (needle hay : String) :
    strContainsSub needle hay = true ↔
      ∃ p t, hay.data = p ++ needle.data ++ t :=
  hasSegment_iff needle.data hay.data

/-- C6: a message within the scanned window of a purge-containing
invocation is deleted exactly when its text contains the given substring
literally and contiguously (character-exact, hence case-sensitive), and a
scanned message without such an occurrence stays in the channel. -/
theorem purge_containing_literal (ctx : Ctx) (amount : Nat) (S : String)
    (ch : Channel) (m : Message) (hm : m ∈ ch.messages.take amount) :
    (m ∈ (purgeContaining ctx amount S ch).deleted ↔
      ∃ p t, m.content.data = p ++ S.data ++ t) ∧
    ((¬ ∃ p t, m.content.data = p ++ S.data ++ t) →
      m ∈ (purgeContaining ctx amount S ch).channel.messages) := by
  constructor
  · rw [show (purgeContaining ctx amount S ch).deleted =
        (ch.messages.take amount).filter
          (fun m => strContainsSub S m.content) from rfl,
      List.mem_filter]
    constructor
    · rintro ⟨_, hc⟩
      exact (strContainsSub_iff S m.content).mp hc
    · intro hex
      exact ⟨hm, (strContainsSub_iff S m.content).mpr hex⟩
  · intro hnot
    have hcf : strContainsSub S m.content = false := by
      apply Bool.eq_false_iff.mpr
      intro htrue
      exact hnot ((strContainsSub_iff S m.content).mp htrue)
    show m ∈ (ch.messages.take amount).filter
        (fun m => !strContainsSub S m.content) ++ ch.messages.drop amount
    exact List.mem_append_left _ (List.mem_filter.mpr ⟨hm, by simp [hcf]⟩)

/-- A channel whose newest messages contain `"X"` and `"x"` respectively. -/
def wChX : Channel :=
  { messages := [{ id := 1, authorId := 5, content := "aXb" },
                 { id := 2, authorId := 6, content := "axb" }] }

theorem purge_containing_literal_witness :
    (({ id := 2, authorId := 6, content := "axb" } : Message) ∈
      (purgeContaining wCtx 10 "X" wChX).deleted ↔
      ∃ p t, (String.data "axb") = p ++ (String.data "X") ++ t) ∧
    ({ id := 2, authorId := 6, content := "axb" } : Message) ∈
      (purgeContaining wCtx 10 "X" wChX).channel.messages :=
  have h := purge_containing_literal wCtx 10 "X" wChX
    { id := 2, authorId := 6, content := "axb" } (by decide)
  ⟨h.1, h.2 (fun hex => absurd (h.1.mpr hex) (by decide))⟩

/-! ## Store update/delete helper lemmas -/

theorem recMatches_false_of_not_scoped {I G : Nat} {db : DB}
    (hnone : ∀ r ∈ db.rows, ¬(r.id = I ∧ r.guildId = G)) :
    ∀ r ∈ db.rows, recMatches I G r = false := by
  intro r hr
  apply Bool.eq_false_iff.mpr
  intro htrue
  simp only [recMatches, Bool.and_eq_true, beq_iff_eq] at htrue
  exact hnone r hr htrue

theorem dbUpdateReason_nomatch {I G : Nat} {db : DB} (R : String) (now : Nat)
    (hfalse : ∀ r ∈ db.rows, recMatches I G r = false) :
    dbUpdateReason db I G R now = (db, 0) := by
  unfold dbUpdateReason
  have h1 : db.rows.filter (recMatches I G) = [] :=
    List.filter_eq_nil_iff.mpr (fun a ha => by simp [hfalse a ha])
  have h2 : db.rows.map (fun r =>
      if recMatches I G r then { r with reason := R, editedOn := some now }
      else r) = db.rows.map (fun r => r) :=
    List.map_congr_left (fun a ha => if_neg (by simp [hfalse a ha]))
  rw [h1, h2, List.map_id']
  rfl

theorem dbDeleteById_nomatch {I G : Nat} {db : DB}
    (hfalse : ∀ r ∈ db.rows, recMatches I G r = false) :
    dbDeleteById db I G = (db, 0) := by
  unfold dbDeleteById
  have h1 : db.rows.filter (recMatches I G) = [] :=
    List.filter_eq_nil_iff.mpr (fun a ha => by simp [hfalse a ha])
  have h2 : db.rows.filter (fun r => !recMatches I G r) = db.rows :=
    List.filter_eq_self.mpr (fun a ha => by simp [hfalse a ha])
  rw [h1, h2]
  rfl

/-- A guild-1 note row used by the edit/delete witnesses. -/
def wRow1 : InfractionRecord :=
  { id := 1, type := InfractionType.note, guildId := 1, userId := 42,
    moderatorId := 7, reason := "likes ducks", createdOn := 10,
    editedOn := none }

/-- A guild-2 kick row whose id exists globally but not under guild 1. -/
def wRow2 : InfractionRecord :=
  { id := 2, type := InfractionType.kick, guildId := 2, userId := 50,
    moderatorId := 8, reason := "x", createdOn := 20, editedOn := none }

/-- A two-guild store used by the edit/delete witnesses. -/
def wDb2 : DB := { rows := [wRow1, wRow2], nextId := 3 }

/-- C3: an infraction-edit with id `I` and new reason `R`: when a record
`(guild, I)` exists the store afterwards holds that record with reason `R`,
`editedOn` set to the current time and `createdOn` unchanged, and the
success embed showing the new reason is sent; when no such record exists
zero rows are affected, the store is unchanged and the not-found embed is
sent. -/
theorem infraction_edit_semantics (ctx : Ctx) (I : Nat) (R : String)
    (now : Nat) (db : DB) :
    (∀ r ∈ db.rows, r.id = I → r.guildId = ctx.guildId →
      (∃ r2 ∈ (infractionEdit ctx I R now db).fst.rows, r2.id = I ∧
        r2.guildId = ctx.guildId ∧ r2.reason = R ∧ r2.editedOn = some now ∧
        r2.createdOn = r.createdOn) ∧
      (infractionEdit ctx I R now db).snd.snd =
        { title := "Successfully edited infraction #`" ++ toString I ++ "`.",
          description := some ("**New reason**: " ++ R),
          colour := "green" }) ∧
    ((∀ r ∈ db.rows, ¬(r.id = I ∧ r.guildId = ctx.guildId)) →
      (infractionEdit ctx I R now db).snd.fst = 0 ∧
      (infractionEdit ctx I R now db).fst = db ∧
      (infractionEdit ctx I R now db).snd.snd =
        { title := "Failed to find infraction #`" ++ toString I ++
            "` on this guild.",
          colour := "red" }) := by
  constructor
  · intro r hr hid hg
    have hmatch : recMatches I ctx.guildId r = true := by
      simp [recMatches, hid, hg]
    have hmemf : r ∈ db.rows.filter (recMatches I ctx.guildId) :=
      List.mem_filter.mpr ⟨hr, hmatch⟩
    have hcount : (db.rows.filter (recMatches I ctx.guildId)).length ≠ 0 :=
      (List.length_pos.mpr (List.ne_nil_of_mem hmemf)).ne'
    constructor
    · refine ⟨{ r with reason := R, editedOn := some now }, ?_, hid, hg,
        rfl, rfl, rfl⟩
      show _ ∈ (dbUpdateReason db I ctx.guildId R now).fst.rows
      exact List.mem_map.mpr ⟨r, hr, by simp [hmatch]⟩
    · simp only [infractionEdit, dbUpdateReason]
      rw [if_neg hcount]
  · intro hnone
    have hfalse := recMatches_false_of_not_scoped hnone
    have hupd := dbUpdateReason_nomatch R now hfalse
    refine ⟨?_, ?_, ?_⟩ <;> simp [infractionEdit, hupd]

theorem infraction_edit_semantics_witness :
    wRow1 ∈ wDb2.rows ∧
    ((∃ r2 ∈ (infractionEdit wCtx 1 "likes geese" 99 wDb2).fst.rows,
        r2.id = 1 ∧ r2.guildId = wCtx.guildId ∧ r2.reason = "likes geese" ∧
        r2.editedOn = some 99 ∧ r2.createdOn = wRow1.createdOn) ∧
      (infractionEdit wCtx 1 "likes geese" 99 wDb2).snd.snd =
        { title := "Successfully edited infraction #`" ++ toString 1 ++ "`.",
          description := some ("**New reason**: " ++ "likes geese"),
          colour := "green" }) :=
  ⟨by decide,
   (infraction_edit_semantics wCtx 1 "likes geese" 99 wDb2).1 wRow1
     (by decide) rfl rfl⟩

/-- C4: an infraction-edit or infraction-delete invoked from a guild with an
id that belongs (globally uniquely) to a record of a different guild
affects zero rows, leaves the store unchanged, reports the not-found embed,
and the other guild record survives unmodified. -/
theorem cross_guild_edit_delete_not_found (ctx : Ctx) (I : Nat) (R : String)
    (now : Nat) (db : DB) (r0 : InfractionRecord)
    (hr : r0 ∈ db.rows) (_hid : r0.id = I) (hg : r0.guildId ≠ ctx.guildId)
    (huniq : ∀ r ∈ db.rows, r.id = I → r = r0) :
    (infractionEdit ctx I R now db).snd.fst = 0 ∧
    (infractionEdit ctx I R now db).fst = db ∧
    (infractionEdit ctx I R now db).snd.snd =
      { title := "Failed to find infraction #`" ++ toString I ++
          "` on this guild.",
        colour := "red" } ∧
    (infractionDelete ctx I db).snd.fst = 0 ∧
    (infractionDelete ctx I db).fst = db ∧
    (infractionDelete ctx I db).snd.snd =
      { title := "Failed to find infraction #`" ++ toString I ++
          "` on this Guild.",
        colour := "red" } ∧
    r0 ∈ (infractionEdit ctx I R now db).fst.rows ∧
    r0 ∈ (infractionDelete ctx I db).fst.rows := by
  have hnone : ∀ r ∈ db.rows, ¬(r.id = I ∧ r.guildId = ctx.guildId) := by
    intro r hrr hand
    have heq := huniq r hrr hand.1
    rw [heq] at hand
    exact hg hand.2
  have hfalse := recMatches_false_of_not_scoped hnone
  have hupd := dbUpdateReason_nomatch R now hfalse
  have hdel := dbDeleteById_nomatch hfalse
  refine ⟨?_, ?_, ?_, ?_, ?_, ?_, ?_, ?_⟩ <;>
    simp [infractionEdit, infractionDelete, hupd, hdel, hr]

theorem cross_guild_edit_delete_not_found_witness :
    (infractionEdit wCtx 2 "z" 99 wDb2).snd.fst = 0 ∧
    (infractionEdit wCtx 2 "z" 99 wDb2).fst = wDb2 ∧
    (infractionEdit wCtx 2 "z" 99 wDb2).snd.snd =
      { title := "Failed to find infraction #`" ++ toString 2 ++
          "` on this guild.",
        colour := "red" } ∧
    (infractionDelete wCtx 2 wDb2).snd.fst = 0 ∧
    (infractionDelete wCtx 2 wDb2).fst = wDb2 ∧
    (infractionDelete wCtx 2 wDb2).snd.snd =
      { title := "Failed to find infraction #`" ++ toString 2 ++
          "` on this Guild.",
        colour := "red" } ∧
    wRow2 ∈ (infractionEdit wCtx 2 "z" 99 wDb2).fst.rows ∧
    wRow2 ∈ (infractionDelete wCtx 2 wDb2).fst.rows :=
  cross_guild_edit_delete_not_found wCtx 2 "z" 99 wDb2 wRow2
    (by decide) rfl (by decide) (by decide)

/-- C7: evaluating `infraction list` on a guild holding a record whose user
cannot be resolved: the `else` branch of cog.py line 487 evaluates
`user.id` with `user = None` (line 488), so the command body raises
`AttributeError` instead of rendering the raw-numeric-id fallback line the
specification describes. -/
theorem infraction_list_raises_on_unresolved_user :
    infractionList (fun _ => none) wCtx [] wDb2 = none := rfl

/-! ## Grouping of the type-ordered rows into sections -/

theorem groupRuns_ne_nil (r : InfractionRecord) (rs : List InfractionRecord) :
    groupRuns (r :: rs) ≠ [] := by
  simp only [groupRuns]
  cases h : groupRuns rs with
  | nil => simp [groupCons]
  | cons hd tl =>
    obtain ⟨t, g⟩ := hd
    simp only [groupCons]
    by_cases hb : r.type == t <;> simp [hb]

theorem groupRuns_flatten (l : List InfractionRecord) :
    ((groupRuns l).map Prod.snd).flatten = l := by
  induction l with
  | nil => rfl
  | cons r rs ih =>
    simp only [groupRuns]
    cases h : groupRuns rs with
    | nil =>
      have hnil : rs = [] := by
        cases rs with
        | nil => rfl
        | cons a t => exact absurd h (groupRuns_ne_nil a t)
      simp [hnil, groupCons]
    | cons hd tl =>
      obtain ⟨t, g⟩ := hd
      rw [h] at ih
      simp only [List.map_cons, List.flatten_cons] at ih
      simp only [groupCons]
      by_cases hb : r.type == t
      · rw [if_pos hb]
        simp only [List.map_cons, List.flatten_cons, List.cons_append]
        rw [ih]
      · rw [if_neg hb]
        simp only [List.map_cons, List.flatten_cons, List.singleton_append]
        rw [ih]

theorem groupRuns_pure (l : List InfractionRecord) :
    ∀ tg ∈ groupRuns l, tg.snd ≠ [] ∧ ∀ r ∈ tg.snd, r.type = tg.fst := by
  induction l with
  | nil => intro tg h; simp [groupRuns] at h
  | cons r rs ih =>
    intro tg htg
    simp only [groupRuns] at htg
    cases h : groupRuns rs with
    | nil =>
      rw [h] at htg
      simp only [groupCons, List.mem_singleton] at htg
      subst htg
      exact ⟨by simp, by simp⟩
    | cons hd tl =>
      obtain ⟨t, g⟩ := hd
      rw [h] at htg
      simp only [groupCons] at htg
      by_cases hb : r.type == t
      · rw [if_pos hb] at htg
        rcases List.mem_cons.mp htg with heq | hmem
        · subst heq
          have hg := ih (t, g) (by rw [h]; exact List.mem_cons_self _ _)
          refine ⟨by simp, ?_⟩
          intro r2 hr2
          rcases List.mem_cons.mp hr2 with rfl | h2
          · exact beq_iff_eq.mp hb
          · exact hg.2 r2 h2
        · exact ih tg (by rw [h]; exact List.mem_cons_of_mem _ hmem)
      · rw [if_neg hb] at htg
        rcases List.mem_cons.mp htg with heq | hmem
        · subst heq
          exact ⟨by simp, by simp⟩
        · exact ih tg (by rw [h]; exact hmem)

theorem groupRuns_headKey (l : List InfractionRecord) :
    (groupRuns l).head?.map Prod.fst = l.head?.map InfractionRecord.type := by
  cases l with
  | nil => rfl
  | cons r rs =>
    simp only [groupRuns]
    cases h : groupRuns rs with
    | nil => rfl
    | cons hd tl =>
      obtain ⟨t, g⟩ := hd
      simp only [groupCons]
      by_cases hb : r.type == t
      · rw [if_pos hb]
        simp [beq_iff_eq.mp hb]
      · rw [if_neg hb]
        simp

theorem typeKey_inj : ∀ a b : InfractionType, typeKey a = typeKey b → a = b := by
  intro a b h
  cases a <;> cases b <;> first
    | rfl
    | (exfalso; simp [typeKey] at h)

theorem groupRuns_chain (l : List InfractionRecord)
    (hs : List.Sorted typeLe l) :
    List.Chain' (fun p q => typeKey p.fst < typeKey q.fst) (groupRuns l) := by
  induction l with
  | nil => simp [groupRuns]
  | cons r rs ih =>
    have hs2 := List.sorted_cons.mp hs
    simp only [groupRuns]
    cases h : groupRuns rs with
    | nil => exact List.chain'_singleton _
    | cons hd tl =>
      obtain ⟨t, g⟩ := hd
      have ihc := ih hs2.2
      rw [h] at ihc
      simp only [groupCons]
      by_cases hb : r.type == t
      · rw [if_pos hb]
        rcases List.chain'_cons'.mp ihc with ⟨hhead, htail⟩
        exact List.chain'_cons'.mpr ⟨hhead, htail⟩
      · rw [if_neg hb]
        have hk : typeKey r.type < typeKey t := by
          have hhk := groupRuns_headKey rs
          rw [h] at hhk
          cases rs with
          | nil => simp [groupRuns] at h
          | cons r1 rs1 =>
            simp only [List.head?_cons, Option.map_some] at hhk
            have ht : t = r1.type := Option.some.inj hhk
            have hle : typeLe r r1 := hs2.1 r1 (List.mem_cons_self _ _)
            have hne : r.type ≠ t := fun he =>
              absurd (beq_iff_eq.mpr he) (by simpa using hb)
            have hle2 : typeKey r.type ≤ typeKey t := by
              rw [ht]; exact hle
            exact lt_of_le_of_ne hle2
              (fun hke => hne (typeKey_inj _ _ hke))
        exact List.chain'_cons.mpr ⟨hk, ihc⟩

theorem groupRuns_keys_nodup (l : List InfractionRecord)
    (hs : List.Sorted typeLe l) :
    ((groupRuns l).map Prod.fst).Nodup := by
  have hc := groupRuns_chain l hs
  have hc2 : List.Chain' (· < ·)
      ((groupRuns l).map (fun p => typeKey p.fst)) := by
    rw [List.chain'_map]
    exact hc
  have hp2 := List.chain'_iff_pairwise.mp hc2
  have hp3 : List.Pairwise (fun p q => typeKey p.fst < typeKey q.fst)
      (groupRuns l) := List.pairwise_map.mp hp2
  have hp4 : List.Pairwise
      (fun p q : InfractionType × List InfractionRecord => p.fst ≠ q.fst)
      (groupRuns l) :=
    hp3.imp (fun hlt he => by rw [he] at hlt; exact lt_irrefl _ hlt)
  exact List.pairwise_map.mpr hp4

theorem pyMax_mem_le (key : InfractionRecord → Nat) :
    ∀ (xs : List InfractionRecord) (best : InfractionRecord),
      pyMax key best xs ∈ best :: xs ∧
      ∀ y ∈ best :: xs, key y ≤ key (pyMax key best xs) := by
  intro xs
  induction xs with
  | nil =>
    intro best
    refine ⟨List.mem_cons_self _ _, ?_⟩
    intro y hy
    rcases List.mem_cons.mp hy with rfl | h2
    · exact le_refl _
    · exact absurd h2 (List.not_mem_nil y)
  | cons x xs ih =>
    intro best
    simp only [pyMax]
    by_cases hlt : key best < key x
    · rw [if_pos hlt]
      obtain ⟨hmem, hle⟩ := ih x
      refine ⟨?_, ?_⟩
      · rcases List.mem_cons.mp hmem with heq | h2
        · rw [heq]
          exact List.mem_cons_of_mem _ (List.mem_cons_self _ _)
        · exact List.mem_cons_of_mem _ (List.mem_cons_of_mem _ h2)
      · intro y hy
        rcases List.mem_cons.mp hy with rfl | h2
        · exact le_trans (le_of_lt hlt) (hle x (List.mem_cons_self _ _))
        · exact hle y h2
    · rw [if_neg hlt]
      obtain ⟨hmem, hle⟩ := ih best
      refine ⟨?_, ?_⟩
      · rcases List.mem_cons.mp hmem with heq | h2
        · rw [heq]
          exact List.mem_cons_self _ _
        · exact List.mem_cons_of_mem _ (List.mem_cons_of_mem _ h2)
      · intro y hy
        rcases List.mem_cons.mp hy with rfl | h2
        · exact hle _ (List.mem_cons_self _ _)
        · rcases List.mem_cons.mp h2 with rfl | h3
          · exact le_trans (Nat.not_lt.mp hlt) (hle best (List.mem_cons_self _ _))
          · exact hle y (List.mem_cons_of_mem _ h3)

/-- C8: an infraction-user invocation with no records for the (guild, user)
pair sends the single no-recorded-infractions embed; with a non-empty row
set the footer reports the total record count and a most-recent record
whose `createdOn` is greatest, and the embed renders one section field per
run of the type-ordered rows, where the run keys are pairwise distinct
(one section per distinct type), every section is non-empty and lists only
records of its type, and the sections together list exactly the (guild,
user) records. -/
theorem infraction_user_grouped_view (ctx : Ctx) (user : User) (db : DB) :
    (selectUserRows db ctx.guildId user.id = [] →
      infractionUser ctx user db = noInfractionsEmbed user) ∧
    (selectUserRows db ctx.guildId user.id ≠ [] →
      ∃ mr ∈ selectUserRows db ctx.guildId user.id,
        (∀ r ∈ selectUserRows db ctx.guildId user.id,
          r.createdOn ≤ mr.createdOn) ∧
        (infractionUser ctx user db).footerText =
          some ("total infractions: " ++
            toString (selectUserRows db ctx.guildId user.id).length ++
            ", most recent: #" ++ toString mr.id ++ " at " ++
            toString mr.createdOn) ∧
        (infractionUser ctx user db).fields =
          (userSections (selectUserRows db ctx.guildId user.id)).map
            (fun tg => (userSectionName tg.fst, userSectionLines tg.snd)) ∧
        ((userSections (selectUserRows db ctx.guildId user.id)).map
          Prod.fst).Nodup ∧
        (∀ tg ∈ userSections (selectUserRows db ctx.guildId user.id),
          tg.snd ≠ [] ∧ ∀ r ∈ tg.snd, r.type = tg.fst) ∧
        List.Perm
          ((userSections (selectUserRows db ctx.guildId user.id)).map
            Prod.snd).flatten
          (db.rows.filter (fun r =>
            r.guildId == ctx.guildId && r.userId == user.id))) := by
  constructor
  · intro h
    simp only [infractionUser, h]
  · intro hne
    obtain ⟨r, rs, hcons⟩ := List.exists_cons_of_ne_nil hne
    have hsorted : List.Sorted typeLe (selectUserRows db ctx.guildId user.id) :=
      List.sorted_insertionSort typeLe _
    have hperm : List.Perm (selectUserRows db ctx.guildId user.id)
        (db.rows.filter (fun r =>
          r.guildId == ctx.guildId && r.userId == user.id)) :=
      List.perm_insertionSort typeLe _
    obtain ⟨hmem, hle⟩ := pyMax_mem_le (fun i => i.createdOn) rs r
    rw [hcons] at hsorted hperm ⊢
    refine ⟨pyMax (fun i => i.createdOn) r rs, hmem, hle, ?_, ?_, ?_, ?_, ?_⟩
    · simp only [infractionUser, hcons]
    · simp only [infractionUser, hcons]
    · exact groupRuns_keys_nodup _ hsorted
    · exact groupRuns_pure _
    · simp only [userSections]
      rw [groupRuns_flatten]
      exact hperm

/-- One `(guild 1, user 42)` history: two notes and one warning, the
warning created last. -/
def wDb3 : DB :=
  { rows := [
      { id := 1, type := InfractionType.note, guildId := 1, userId := 42,
        moderatorId := 7, reason := "a", createdOn := 10, editedOn := none },
      { id := 2, type := InfractionType.warning, guildId := 1, userId := 42,
        moderatorId := 7, reason := "b", createdOn := 30, editedOn := none },
      { id := 3, type := InfractionType.note, guildId := 1, userId := 42,
        moderatorId := 7, reason := "c", createdOn := 20, editedOn := none }],
    nextId := 4 }

/-- The user whose history `wDb3` holds. -/
def wUser : User := { id := 42, name := "U" }

theorem infraction_user_grouped_view_witness :
    ∃ mr ∈ selectUserRows wDb3 wCtx.guildId wUser.id,
      (∀ r ∈ selectUserRows wDb3 wCtx.guildId wUser.id,
        r.createdOn ≤ mr.createdOn) ∧
      (infractionUser wCtx wUser wDb3).footerText =
        some ("total infractions: " ++
          toString (selectUserRows wDb3 wCtx.guildId wUser.id).length ++
          ", most recent: #" ++ toString mr.id ++ " at " ++
          toString mr.createdOn) ∧
      (infractionUser wCtx wUser wDb3).fields =
        (userSections (selectUserRows wDb3 wCtx.guildId wUser.id)).map
          (fun tg => (userSectionName tg.fst, userSectionLines tg.snd)) ∧
      ((userSections (selectUserRows wDb3 wCtx.guildId wUser.id)).map
        Prod.fst).Nodup ∧
      (∀ tg ∈ userSections (selectUserRows wDb3 wCtx.guildId wUser.id),
        tg.snd ≠ [] ∧ ∀ r ∈ tg.snd, r.type = tg.fst) ∧
      List.Perm
        ((userSections (selectUserRows wDb3 wCtx.guildId wUser.id)).map
          Prod.snd).flatten
        (wDb3.rows.filter (fun r =>
          r.guildId == wCtx.guildId && r.userId == wUser.id)) :=
  (infraction_user_grouped_view wCtx wUser wDb3).2 (by decide)

end Bolt
